import Mathlib

/-!
Verification of the meet-agent transcript-analysis pipeline and its
conversational session layer.

Python strings are modelled as `List Char` (named `Str` below).  Machine
behaviour that the repository relies on from the Python runtime and standard
library (`str.find`, slicing, `str.split`, `str.strip`, `json.loads`,
`datetime.strptime`, `str(timedelta)`) is embedded explicitly below, faithful
to CPython semantics on the ASCII inputs the code manipulates (Unicode
subtleties such as non-ASCII digits or whitespace are not modelled; every
claim is about ASCII data).

The Gemini model call (`self.model.generate_content(...)` /
`ChatHandler._call_model`) is a network collaborator; it is passed in as a
function parameter so that theorems can quantify over its behaviour,
including stubs that always return the empty string or always raise.
Raising Python code is modelled with `Except Str`, the error payload being
the exception text.
-/

abbrev Str := List Char

/-- Whitespace characters stripped by Python `str.strip()` (ASCII subset). -/
def isPyWs (c : Char) : Bool :=
  c = ' ' || c = '\t' || c = '\n' || c = '\r' || c = '\x0b' || c = '\x0c'

/-- Remove trailing characters satisfying `p` (helper for `strip`). -/
def dropRightWhile (p : Char → Bool) (s : Str) : Str :=
  (s.reverse.dropWhile p).reverse

/-- Python `str.strip()` (ASCII whitespace). -/
def pyStrip (s : Str) : Str :=
  dropRightWhile isPyWs (s.dropWhile isPyWs)

/-- Python `str.strip(chars)`: strip any of the given characters from both ends. -/
def pyStripChars (chars : Str) (s : Str) : Str :=
  dropRightWhile (fun c => chars.contains c) (s.dropWhile (fun c => chars.contains c))

/-- Python `str.lower()` (ASCII letters; the code only lower-cases chat text). -/
def pyLower (s : Str) : Str := s.map Char.toLower

/-- Python `str.find(c)` for a single-character needle: first index or `-1`. -/
def pyFind (s : Str) (c : Char) : Int :=
  match s.findIdx? (· = c) with
  | some i => (i : Int)
  | none => -1

/-- Python `str.rfind(c)` for a single-character needle: last index or `-1`. -/
def pyRfind (s : Str) (c : Char) : Int :=
  match s.reverse.findIdx? (· = c) with
  | some i => ((s.length - 1 - i : Nat) : Int)
  | none => -1

/-- Clamp a Python slice endpoint to an actual index (step-1 slices). -/
def pySliceIdx (len : Nat) (i : Int) : Nat :=
  if i < 0 then (max (i + len) 0).toNat else min i.toNat len

/-- Python `s[a:b]` for integer endpoints (step 1). -/
def pySlice (s : Str) (a b : Int) : Str :=
  let st := pySliceIdx s.length a
  let en := pySliceIdx s.length b
  (s.drop st).take (en - st)

/-- Python `needle in haystack` (substring containment). -/
def strIn (n : Str) : Str → Bool
  | [] => n.isEmpty
  | c :: t => n.isPrefixOf (c :: t) || strIn n t

/-- Index of the first occurrence of substring `n` in `s`, if any. -/
def subIdx (n : Str) : Str → Option Nat
  | [] => if n.isEmpty then some 0 else none
  | c :: t =>
    if n.isPrefixOf (c :: t) then some 0
    else (subIdx n t).map (· + 1)

/-- Python `s.split(sep, 1)` for a non-empty separator: at most two parts. -/
def pySplit1 (sep : Str) (s : Str) : List Str :=
  match subIdx sep s with
  | some i => [s.take i, s.drop (i + sep.length)]
  | none => [s]

/-- Python `s.split('\n')`: split on every newline, keeping empty segments. -/
def pySplitNl : Str → List Str
  | [] => [[]]
  | '\n' :: rest => [] :: pySplitNl rest
  | c :: rest =>
    match pySplitNl rest with
    | l :: ls => (c :: l) :: ls
    | [] => [[c]]

/-- First element of Python `s.splitlines()`: the text before the first line
break (`\n` or `\r`; only called on non-empty strings by the code). -/
def firstSplitLine (s : Str) : Str :=
  s.takeWhile (fun c => c ≠ '\n' && c ≠ '\r')

/-- Decimal rendering of a natural number. -/
def natStr (n : Nat) : Str := (Nat.repr n).data

/-- Decimal rendering of an integer (Python `str(int)`). -/
def intStr (i : Int) : Str := (Int.repr i).data

/-- Two-digit zero-padded rendering, as in Python `"%02d"` 0-99 fields. -/
def pad2 (n : Nat) : Str := if n < 10 then '0' :: natStr n else natStr n

/-! ## JSON values and `json.loads`

The extractors feed model output to `json.loads`.  A JSON value is modelled
structurally; numbers keep their source lexeme verbatim (no claim inspects a
numeric value, so int/float decoding is not needed). -/

inductive JValue where
  | null : JValue
  | bool (b : Bool) : JValue
  | num (lexeme : Str) : JValue
  | str (s : Str) : JValue
  | arr (xs : List JValue) : JValue
  | obj (members : List (Str × JValue)) : JValue

/-- Whitespace skipped by Python's JSON decoder. -/
def isJsonWs (c : Char) : Bool :=
  c = ' ' || c = '\t' || c = '\n' || c = '\r'

/-- Insert a key into an object, replacing in place on duplicate keys
(Python dicts keep the first position, last value). -/
def jsonInsertKey (ms : List (Str × JValue)) (k : Str) (v : JValue) :
    List (Str × JValue) :=
  match ms with
  | [] => [(k, v)]
  | (k', v') :: rest =>
    if k' = k then (k', v) :: rest else (k', v') :: jsonInsertKey rest k v

/-- One escape character of a JSON string literal. -/
def jsonEscChar (c : Char) : Option Char :=
  if c = '"' then some '"'
  else if c = '\\' then some '\\'
  else if c = '/' then some '/'
  else if c = 'b' then some '\x08'
  else if c = 'f' then some '\x0c'
  else if c = 'n' then some '\n'
  else if c = 'r' then some '\r'
  else if c = 't' then some '\t'
  else none

def hexVal (c : Char) : Option Nat :=
  if '0' ≤ c ∧ c ≤ '9' then some (c.toNat - '0'.toNat)
  else if 'a' ≤ c ∧ c ≤ 'f' then some (c.toNat - 'a'.toNat + 10)
  else if 'A' ≤ c ∧ c ≤ 'F' then some (c.toNat - 'A'.toNat + 10)
  else none

/-- Parse the body of a JSON string literal (after the opening quote);
returns the decoded string and the rest of the input.  `\uXXXX` escapes are
decoded as a single code point (surrogate pairs are not combined; no claim
exercises them). -/
def parseJStr : Str → Option (Str × Str)
  | '"' :: r => some ([], r)
  | '\\' :: 'u' :: h1 :: h2 :: h3 :: h4 :: r =>
    match hexVal h1, hexVal h2, hexVal h3, hexVal h4 with
    | some a, some b, some c, some d =>
      (parseJStr r).map fun (s, r') =>
        (Char.ofNat (((a * 16 + b) * 16 + c) * 16 + d) :: s, r')
    | _, _, _, _ => none
  | '\\' :: e :: r =>
    match jsonEscChar e with
    | some ec => (parseJStr r).map fun (s, r') => (ec :: s, r')
    | none => none
  | c :: r =>
    if c.toNat < 0x20 then none
    else (parseJStr r).map fun (s, r') => (c :: s, r')
  | [] => none

def isDigitChar (c : Char) : Bool := '0' ≤ c && c ≤ '9'

/-- Lex a JSON number (sign, integer part, optional fraction and exponent),
returning the lexeme and the remaining input. -/
def lexJsonNum (s : Str) : Option (Str × Str) :=
  let (sign, s₁) := match s with
    | '-' :: t => (['-'], t)
    | _ => ([], s)
  let intPart := s₁.takeWhile isDigitChar
  let s₂ := s₁.dropWhile isDigitChar
  if intPart = [] then none
  else if intPart.length > 1 && intPart.headD '0' = '0' then none
  else
    let (fracPart, s₃) := match s₂ with
      | '.' :: t =>
        let ds := t.takeWhile isDigitChar
        if ds = [] then ([], s₂) else ('.' :: ds, t.dropWhile isDigitChar)
      | _ => ([], s₂)
    if fracPart = [] && s₂ ≠ s₃ then none
    else
      let (expPart, s₄) := match s₃ with
        | 'e' :: t => (some ('e', t), s₃)
        | 'E' :: t => (some ('E', t), s₃)
        | _ => (none, s₃)
      match expPart with
      | none => some (sign ++ intPart ++ fracPart, s₄)
      | some (ec, t) =>
        let (es, t₁) := match t with
          | '+' :: u => (['+'], u)
          | '-' :: u => (['-'], u)
          | _ => ([], t)
        let ds := t₁.takeWhile isDigitChar
        if ds = [] then none
        else some (sign ++ intPart ++ fracPart ++ ec :: es ++ ds,
                   t₁.dropWhile isDigitChar)

/-- Parser modes: a value, the tail of an array, or the tail of an object. -/
inductive JMode where
  | val : JMode
  | arrTail (acc : List JValue) : JMode
  | objTail (acc : List (Str × JValue)) : JMode

/-- Recursive-descent JSON parser, fuelled (structural on the fuel so that
concrete runs reduce definitionally). -/
def parseJ : Nat → JMode → Str → Option (JValue × Str)
  | 0, _, _ => none
  | fuel + 1, .val, cs =>
    match cs.dropWhile isJsonWs with
    | 'n' :: 'u' :: 'l' :: 'l' :: r => some (.null, r)
    | 't' :: 'r' :: 'u' :: 'e' :: r => some (.bool true, r)
    | 'f' :: 'a' :: 'l' :: 's' :: 'e' :: r => some (.bool false, r)
    | '"' :: r => (parseJStr r).map fun (s, r') => (.str s, r')
    | '[' :: r =>
      (match r.dropWhile isJsonWs with
       | ']' :: r' => some (.arr [], r')
       | _ =>
         match parseJ fuel .val r with
         | some (v, r₁) => parseJ fuel (.arrTail [v]) r₁
         | none => none)
    | '{' :: r =>
      (match r.dropWhile isJsonWs with
       | '}' :: r' => some (.obj [], r')
       | '"' :: r' =>
         (match parseJStr r' with
          | some (k, r₁) =>
            (match (r₁.dropWhile isJsonWs) with
             | ':' :: r₂ =>
               (match parseJ fuel .val r₂ with
                | some (v, r₃) => parseJ fuel (.objTail (jsonInsertKey [] k v)) r₃
                | none => none)
             | _ => none)
          | none => none)
       | _ => none)
    | cs' =>
      (lexJsonNum cs').map fun (lx, r) => (.num lx, r)
  | fuel + 1, .arrTail acc, cs =>
    match cs.dropWhile isJsonWs with
    | ']' :: r => some (.arr acc, r)
    | ',' :: r =>
      (match parseJ fuel .val r with
       | some (v, r₁) => parseJ fuel (.arrTail (acc ++ [v])) r₁
       | none => none)
    | _ => none
  | fuel + 1, .objTail acc, cs =>
    match cs.dropWhile isJsonWs with
    | '}' :: r => some (.obj acc, r)
    | ',' :: r =>
      (match r.dropWhile isJsonWs with
       | '"' :: r' =>
         (match parseJStr r' with
          | some (k, r₁) =>
            (match r₁.dropWhile isJsonWs with
             | ':' :: r₂ =>
               (match parseJ fuel .val r₂ with
                | some (v, r₃) => parseJ fuel (.objTail (jsonInsertKey acc k v)) r₃
                | none => none)
             | _ => none)
          | none => none)
       | _ => none)
    | _ => none

/-- Python `json.loads`: parse one JSON document, requiring only whitespace
after it; `none` models the `json.JSONDecodeError` that the extractors catch. -/
def jsonLoads (s : Str) : Option JValue :=
  match parseJ (2 * s.length + 4) .val s with
  | some (v, rest) => if rest.dropWhile isJsonWs = [] then some v else none
  | none => none

/-! `json.dumps` (used only to build chat prompts; no claim inspects prompt
text).  Default separators `", "` and `": "`; strings are emitted with
`ensure_ascii`-style escaping of control and non-ASCII characters. -/

def jsonDumpStrChar (c : Char) : Str :=
  if c = '"' then ['\\', '"']
  else if c = '\\' then ['\\', '\\']
  else if c = '\n' then ['\\', 'n']
  else if c = '\t' then ['\\', 't']
  else if c = '\r' then ['\\', 'r']
  else if c.toNat < 0x20 || c.toNat > 0x7e then
    let hx := Nat.toDigits 16 c.toNat
    '\\' :: 'u' :: (List.replicate (4 - hx.length) '0' ++ hx)
  else [c]

def jsonDumpStr (s : Str) : Str :=
  '"' :: (s.flatMap jsonDumpStrChar) ++ ['"']

mutual

def jsonDumps : JValue → Str
  | .null => "null".data
  | .bool true => "true".data
  | .bool false => "false".data
  | .num lx => lx
  | .str s => jsonDumpStr s
  | .arr xs => '[' :: jsonDumpsItems xs ++ [']']
  | .obj ms => '{' :: jsonDumpsMembers ms ++ ['}']

def jsonDumpsItems : List JValue → Str
  | [] => []
  | [x] => jsonDumps x
  | x :: y :: xs => jsonDumps x ++ ',' :: ' ' :: jsonDumpsItems (y :: xs)

def jsonDumpsMembers : List (Str × JValue) → Str
  | [] => []
  | [(k, v)] => jsonDumpStr k ++ ':' :: ' ' :: jsonDumps v
  | (k, v) :: m :: ms =>
    (jsonDumpStr k ++ ':' :: ' ' :: jsonDumps v) ++ ',' :: ' ' :: jsonDumpsMembers (m :: ms)

end

/-! Python `str()` applied to a decoded JSON value (the chat handler's
`str(summary_obj)` when the summary is not a dict): `repr`-style rendering
with single-quoted strings, `None`/`True`/`False` keywords. -/

mutual

def pyStrOf : JValue → Str
  | .null => "None".data
  | .bool true => "True".data
  | .bool false => "False".data
  | .num lx => lx
  | .str s => s
  | .arr xs => '[' :: pyReprItems xs ++ [']']
  | .obj ms => '{' :: pyReprMembers ms ++ ['}']

def pyReprOf : JValue → Str
  | .null => "None".data
  | .bool true => "True".data
  | .bool false => "False".data
  | .num lx => lx
  | .str s => '\'' :: s ++ ['\'']
  | .arr xs => '[' :: pyReprItems xs ++ [']']
  | .obj ms => '{' :: pyReprMembers ms ++ ['}']

def pyReprItems : List JValue → Str
  | [] => []
  | [x] => pyReprOf x
  | x :: y :: xs => pyReprOf x ++ ',' :: ' ' :: pyReprItems (y :: xs)

def pyReprMembers : List (Str × JValue) → Str
  | [] => []
  | [(k, v)] => '\'' :: k ++ '\'' :: ':' :: ' ' :: pyReprOf v
  | (k, v) :: m :: ms =>
    ('\'' :: k ++ '\'' :: ':' :: ' ' :: pyReprOf v) ++ ',' :: ' ' :: pyReprMembers (m :: ms)

end

/-- Python `dict.get(key, default)` on a decoded JSON object. -/
def jvGet (v : JValue) (key : Str) (dflt : JValue) : JValue :=
  match v with
  | .obj ms =>
    match ms.find? (fun m => m.1 = key) with
    | some m => m.2
    | none => dflt
  | _ => dflt

/-! ## `GeminiTranscriptProcessor` (src/models/gemini_transcript_processor.py)

The constructor's model discovery and verification is network setup and is
not modelled; the instance's generative model is the collaborator parameter
`Model` below.  `model prompt` is `self.model.generate_content(prompt).text`:
`.ok text` when the call returns a response whose `.text` is `text`, and
`.error e` when the call (or the `.text` accessor) raises. -/

abbrev Model := Str → Except Str Str

namespace GeminiTranscriptProcessor

/-- One parsed transcript utterance (`{"timestamp": ..., "speaker": ..., "content": ...}`). -/
structure Message where
  timestamp : Str
  speaker : Str
  content : Str
deriving DecidableEq

/-- Match `re.search(r'\[(\d{2}:\d{2}:\d{2})\]', line)` at the head of the
input: on success return the captured `HH:MM:SS` group and the text after the
closing bracket. -/
def matchTs : Str → Option (Str × Str)
  | '[' :: a :: b :: ':' :: c :: d :: ':' :: e :: f :: ']' :: rest =>
    if a.isDigit && b.isDigit && c.isDigit && d.isDigit && e.isDigit && f.isDigit then
      some ([a, b, ':', c, d, ':', e, f], rest)
    else none
  | _ => none

/-- `re.search` scans for the leftmost match of the timestamp pattern. -/
def findTs : Str → Option (Str × Str)
  | [] => none
  | c :: rest =>
    match matchTs (c :: rest) with
    | some r => some r
    | none => findTs rest

/-- Python `line[line.find(']') + 1:]`: everything after the first `']'` in
the line (the whole line when there is none, since `find` returns `-1` and
`line[0:]` is the line). -/
def afterFirstRBracket (line : Str) : Str :=
  match line.findIdx? (· = ']') with
  | some i => line.drop (i + 1)
  | none => line

/-- The per-line body of `extract_messages`: skip blank lines, require a
bracketed timestamp somewhere in the line, take the text after the first
`']'`, and split it on the first colon into speaker and content. -/
def processLine (line : Str) : Option Message :=
  if pyStrip line = [] then none
  else
    match findTs line with
    | none => none
    | some (timestamp, _) =>
      let remaining := pyStrip (afterFirstRBracket line)
      if remaining.contains ':' then
        let speaker := remaining.takeWhile (· ≠ ':')
        let content := (remaining.dropWhile (· ≠ ':')).tail
        some ⟨timestamp, pyStrip speaker, pyStrip content⟩
      else none

/-- `extract_messages`: one utterance per line that parses, in line order. -/
def extract_messages (transcript : Str) : List Message :=
  (pySplitNl transcript).filterMap processLine

/-- `"\n".join(f"{msg['speaker']}: {msg['content']}" for msg in messages)`. -/
def conversationOf (messages : List Message) : Str :=
  List.intercalate ['\n'] (messages.map fun m => m.speaker ++ ':' :: ' ' :: m.content)

def summaryPromptHeader : Str :=
  ("\n        Analyze the following meeting transcript and provide:\n        1. A concise summary (2-3 paragraphs)\n        2. List of main topics discussed\n        3. Key points highlighted\n\n        Format your response as a JSON object with these keys:\n        \x7b\n            \"summary\": \"your summary here\",\n            \"main_topics\": [\"topic 1\", \"topic 2\", ...],\n            \"key_points\": [\"point 1\", \"point 2\", ...]\n        \x7d\n\n        Meeting Transcript:\n        ").data

def actionItemsPromptHeader : Str :=
  ("\n        Analyze this meeting transcript and identify all action items. For each action item, provide:\n        1. Who is responsible\n        2. What needs to be done\n        3. Any mentioned deadlines\n\n        Format your response as a JSON array of objects:\n        [\n            \x7b\n                \"assignee\": \"person name\",\n                \"task\": \"what needs to be done\",\n                \"deadline\": \"mentioned deadline or null\",\n                \"context\": \"relevant context\"\n            \x7d\n        ]\n\n        Meeting Transcript:\n        ").data

def meetingRequestsPromptHeader : Str :=
  ("\n        Analyze this conversation for any mentions of future meetings or scheduling requests.\n        For each meeting request, identify:\n        1. Who requested the meeting\n        2. Proposed time/date\n        3. Suggested participants\n        4. Meeting purpose\n\n        Format your response as a JSON array of objects:\n        [\n            \x7b\n                \"requester\": \"person name\",\n                \"proposed_time\": \"mentioned time\",\n                \"participants\": [\"person1\", \"person2\"],\n                \"purpose\": \"meeting purpose\"\n            \x7d\n        ]\n\n        Meeting Transcript:\n        ").data

def keyDecisionsPromptHeader : Str :=
  ("\n        Analyze this conversation and identify key decisions made during the meeting.\n        For each decision, provide:\n        1. What was decided\n        2. Who made or approved the decision\n        3. Any context or rationale provided\n\n        Format your response as a JSON array of objects:\n        [\n            \x7b\n                \"decision\": \"what was decided\",\n                \"decision_maker\": \"who made the decision\",\n                \"rationale\": \"context or reasoning\"\n            \x7d\n        ]\n\n        Meeting Transcript:\n        ").data

/-- `response.text[response.text.find(o):response.text.rfind(c)+1]`. -/
def bracketSlice (text : Str) (o c : Char) : Str :=
  pySlice text (pyFind text o) (pyRfind text c + 1)

/-- `generate_summary`: call the model, scan for the outermost braces, try
`json.loads`; on any parse failure fall back to
`{"summary": response.text, "main_topics": [], "key_points": []}`.
The model call itself sits outside the `try`, so its exception propagates. -/
def generate_summary (model : Model) (messages : List Message) : Except Str JValue :=
  let prompt := summaryPromptHeader ++ conversationOf messages
  match model prompt with
  | .error e => .error e
  | .ok text =>
    match jsonLoads (bracketSlice text '{' '}') with
    | some v => .ok v
    | none => .ok (.obj [("summary".data, .str text), ("main_topics".data, .arr []),
                         ("key_points".data, .arr [])])

/-- Shared body of the three array-shaped extractors: scan for the outermost
square brackets and parse; fall back to `[]` on parse failure.  The model
call is again outside the `try`. -/
def arrayExtract (header : Str) (model : Model) (messages : List Message) :
    Except Str JValue :=
  let prompt := header ++ conversationOf messages
  match model prompt with
  | .error e => .error e
  | .ok text =>
    match jsonLoads (bracketSlice text '[' ']') with
    | some v => .ok v
    | none => .ok (.arr [])

def extract_action_items (model : Model) (messages : List Message) : Except Str JValue :=
  arrayExtract actionItemsPromptHeader model messages

def extract_meeting_requests (model : Model) (messages : List Message) : Except Str JValue :=
  arrayExtract meetingRequestsPromptHeader model messages

def extract_key_decisions (model : Model) (messages : List Message) : Except Str JValue :=
  arrayExtract keyDecisionsPromptHeader model messages

/-- `datetime.strptime(ts, "%H:%M:%S")`, reduced to the shapes the processor
feeds it (the regex-captured `dd:dd:dd` timestamps): two-digit fields with
CPython's range checks (`ValueError` otherwise).  Returns seconds since
midnight. -/
def strptimeHMS (ts : Str) : Except Str Nat :=
  match ts with
  | [h1, h2, ':', m1, m2, ':', s1, s2] =>
    if h1.isDigit && h2.isDigit && m1.isDigit && m2.isDigit && s1.isDigit && s2.isDigit then
      let h := (h1.toNat - '0'.toNat) * 10 + (h2.toNat - '0'.toNat)
      let m := (m1.toNat - '0'.toNat) * 10 + (m2.toNat - '0'.toNat)
      let s := (s1.toNat - '0'.toNat) * 10 + (s2.toNat - '0'.toNat)
      if h ≤ 23 && m ≤ 59 && s ≤ 59 then .ok (h * 3600 + m * 60 + s)
      else .error ("time data does not match format %H:%M:%S".data)
    else .error ("time data does not match format %H:%M:%S".data)
  | _ => .error ("time data does not match format %H:%M:%S".data)

/-- Python `str(timedelta)` for a difference of two times-of-day: days are
normalised by floor division (Python `divmod`), rendered as
`H:MM:SS` with a `"D day(s), "` prefix when the day count is non-zero. -/
def timedeltaStr (d : Int) : Str :=
  let days : Int := d / 86400
  let secs : Nat := (d % 86400).toNat
  let hms := natStr (secs / 3600) ++ ':' :: pad2 (secs % 3600 / 60) ++ ':' :: pad2 (secs % 60)
  if days = 0 then hms
  else
    intStr days ++ (if days = 1 || days = -1 then " day, ".data else " days, ".data) ++ hms

/-- `_calculate_duration`: `"0:00"` for an empty sequence, otherwise
`str(end - start)` of the first and last timestamps (raises if either
timestamp is not a valid time of day). -/
def calculate_duration (messages : List Message) : Except Str Str :=
  match messages with
  | [] => .ok ("0:00".data)
  | first :: rest =>
    match strptimeHMS first.timestamp with
    | .error e => .error e
    | .ok start =>
      match strptimeHMS ((rest.getLastD first).timestamp) with
      | .error e => .error e
      | .ok stop => .ok (timedeltaStr ((stop : Int) - (start : Int)))

/-- `list(set(msg["speaker"] for msg in messages))`.  CPython's set iteration
order is unspecified; the embedding fixes first-occurrence order (no claim
depends on the order). -/
def participantsOf (messages : List Message) : List Str :=
  (messages.map (·.speaker)).foldl (fun acc s => if acc.contains s then acc else acc ++ [s]) []

/-- The aggregate returned by `process_transcript`. -/
structure Analysis where
  summary : JValue
  action_items : JValue
  meeting_requests : JValue
  key_decisions : JValue
  participants : List Str
  duration : Str

/-- `process_transcript`: extract utterances, run the four extractors, and
assemble the aggregate with the derived participant list and duration.  Any
exception from a model call or from `_calculate_duration` propagates. -/
def process_transcript (model : Model) (transcript : Str) : Except Str Analysis :=
  let messages := extract_messages transcript
  match generate_summary model messages with
  | .error e => .error e
  | .ok summary =>
    match extract_action_items model messages with
    | .error e => .error e
    | .ok action_items =>
      match extract_meeting_requests model messages with
      | .error e => .error e
      | .ok meeting_requests =>
        match extract_key_decisions model messages with
        | .error e => .error e
        | .ok key_decisions =>
          match calculate_duration messages with
          | .error e => .error e
          | .ok duration =>
            .ok ⟨summary, action_items, meeting_requests, key_decisions,
                 participantsOf messages, duration⟩

end GeminiTranscriptProcessor

/-! ## `ChatHandler` (src/utils/chat_handler.py)

Session state owns the message history, the last transcript and the last
analysis.  Collaborators are parameters:

* `callModel : Str → Str` is `ChatHandler._call_model`, which probes several
  SDK call shapes, swallows every exception, and returns `""` on total
  failure — so it is total and never raises;
* the notes service is `Option NotionService`, `none` when no
  `NotionIntegration` was injected; a call models
  `NotionIntegration.create_meeting_page` (network, may raise);
* `proc : Str → Except Str Analysis` is
  `GeminiTranscriptProcessor.process_transcript` of the owned processor;
* `dbId` is `settings.NOTION_DATABASE_ID` (`settings` has no
  `NOTION_PARENT_PAGE_ID` attribute, so that `getattr` is always `None`).
-/

namespace ChatHandler

open GeminiTranscriptProcessor (Analysis)

/-- One history entry `{"role": ..., "content": ...}`.  The role is a plain
string, exactly as in the Python dict. -/
structure ChatMsg where
  role : Str
  content : Str
deriving DecidableEq

/-- The mutable state of one `ChatHandler` instance. -/
structure SessionState where
  messages : List ChatMsg
  current_transcript : Option Str
  current_analysis : Option Analysis

/-- `add_message(content, role)` (the Python default role is `"user"`). -/
def add_message (s : SessionState) (content : Str) (role : Str) : SessionState :=
  { s with messages := s.messages ++ [⟨role, content⟩] }

/-- `get_messages()`. -/
def get_messages (s : SessionState) : List ChatMsg := s.messages

/-- `clear_conversation()`. -/
def clear_conversation (_s : SessionState) : SessionState :=
  ⟨[], none, none⟩

/-- State after `__init__` completes with the optional sample-transcript file
absent: the greeting is appended, no transcript or analysis stored. -/
def initState : SessionState :=
  ⟨[⟨"assistant".data, "Ready to analyze transcripts.".data⟩], none, none⟩

/-- `process_transcript`: store the transcript, run the processor, store the
analysis and append a short assistant message; on any exception append an
error message and return `{}` (modelled as `none`) — note the stored
analysis is only overwritten on success, since the raising call sits on the
right-hand side of the assignment.  (The `summary_text` computed inside the
`try` block is dead code and is omitted.) -/
def process_transcript (proc : Str → Except Str Analysis) (s : SessionState)
    (transcript_text : Str) : SessionState × Option Analysis :=
  match proc transcript_text with
  | .ok a =>
    ({ messages := s.messages ++ [⟨"assistant".data, "Transcript processed. Summary available.".data⟩],
       current_transcript := some transcript_text,
       current_analysis := some a }, some a)
  | .error e =>
    ({ s with
       current_transcript := some transcript_text,
       messages := s.messages ++
         [⟨"assistant".data, "Error processing transcript: ".data ++ e⟩] }, none)

/-- The fixed Notion-write trigger phrases. -/
def notionTriggers : List Str :=
  [("save to notion").data,
   ("write to notion").data,
   ("create notion page").data,
   ("export to notion").data,
   ("store to notion").data,
   ("save notes to notion").data,
   ("please save to notion").data,
   ("please write to notion").data,
   ("create a notion page").data,
   ("save meeting to notion").data]

/-- The `for sep in ("titled", "title")` extraction loop, run over the
lower-cased message: split on the first marker occurrence and keep the
remainder when its whitespace-strip is non-empty, stripped of surrounding
whitespace and quote characters. -/
def titleFromSep (sep : Str) (text : Str) : Option Str :=
  if strIn sep text then
    match pySplit1 sep text with
    | [_, p1] =>
      if pyStrip p1 ≠ [] then some (pyStripChars ([' ', '"', '\'']) (pyStrip p1))
      else none
    | _ => none
  else none

def titleFromMarker (text : Str) : Option Str :=
  match titleFromSep (("titled").data) text with
  | some t => some t
  | none => titleFromSep (("title").data) text

/-- `f"Meeting Notes - auto ({self.current_transcript[:30].splitlines()[0]
if self.current_transcript else 'untitled'})"`. -/
def fallbackTitle (transcript : Option Str) : Str :=
  ("Meeting Notes - auto (").data ++
  (match transcript with
   | some t => if t = [] then ("untitled").data else firstSplitLine (t.take 30)
   | none => ("untitled").data) ++ [')']

/-- `summary_obj.get("summary", "")` when the stored summary is a dict, else
`str(summary_obj)`. -/
def summaryTextOf (summary : JValue) : JValue :=
  match summary with
  | .obj ms => jvGet (.obj ms) (("summary").data) (.str [])
  | v => .str (pyStrOf v)

/-- Arguments of the one `create_meeting_page` call the handler makes. -/
structure NotionArgs where
  title : Str
  summary : JValue
  action_items : JValue
  parent_id : Option Str
  parent_type : Str

/-- The notes-service collaborator: returns the created page id, or raises. -/
abbrev NotionService := NotionArgs → Except Str Str

/-- Intent-scoped prompt construction (the four keyword branches). -/
def buildPrompt (analysis : Analysis) (user_lower user_message : Str) : Str :=
  if [("schedule").data, ("meeting").data, ("calendar").data, ("when").data].any
      (fun k => strIn k user_lower) then
    ("Using meeting requests:\n").data ++ jsonDumps analysis.meeting_requests ++
    ("\n\nUser: ").data ++ user_message ++ ['\n'] ++
    ("Return a concise scheduling suggestion with purpose, attendees and proposed time/date.").data
  else if [("task").data, ("action").data, ("todo").data, ("assignment").data].any
      (fun k => strIn k user_lower) then
    ("Using action items:\n").data ++ jsonDumps analysis.action_items ++
    ("\n\nUser: ").data ++ user_message ++ ['\n'] ++
    ("Return a concise list of tasks with assignees and deadlines.").data
  else if [("decide").data, ("decision").data, ("agreed").data, ("conclusion").data].any
      (fun k => strIn k user_lower) then
    ("Using key decisions:\n").data ++ jsonDumps analysis.key_decisions ++
    ("\n\nUser: ").data ++ user_message ++ ['\n'] ++
    ("Return a concise explanation of decisions and rationale.").data
  else
    ("Based on the analysis below, answer concisely.\n\n").data ++
    ("Summary: ").data ++ jsonDumps analysis.summary ++ ['\n'] ++
    ("Action Items: ").data ++ jsonDumps analysis.action_items ++ ['\n'] ++
    ("Meeting Requests: ").data ++ jsonDumps analysis.meeting_requests ++ ['\n'] ++
    ("Key Decisions: ").data ++ jsonDumps analysis.key_decisions ++ ("\n\n").data ++
    ("User: ").data ++ user_message ++ ("\n\nRespond concisely.").data

/-- Result of one `get_response` turn: the returned reply, the state after
the turn, and the collaborator invocations made (prompts sent to the model
adapter; `create_meeting_page` calls). -/
structure ChatResult where
  reply : Str
  state : SessionState
  modelCalls : List Str
  notionCalls : List NotionArgs

/-- `get_response(user_message)`: precondition check, explicit-Notion-write
intent (checked first), then keyword-routed conversational reply. -/
def get_response (callModel : Str → Str) (notion : Option NotionService) (dbId : Str)
    (s : SessionState) (user_message : Str) : ChatResult :=
  match s.current_analysis with
  | none => ⟨("Please upload or provide a transcript first.").data, s, [], []⟩
  | some analysis =>
    let text := pyLower (pyStrip user_message)
    if notionTriggers.any (fun t => strIn t text) then
      match notion with
      | none =>
        ⟨("Notion integration is not configured. Set NOTION_TOKEN and initialize NotionIntegration.").data,
         s, [], []⟩
      | some svc =>
        let titleOpt :=
          if strIn (("title").data) text || strIn (("titled").data) text then
            titleFromMarker text
          else none
        let title :=
          match titleOpt with
          | some t => if t = [] then fallbackTitle s.current_transcript else t
          | none => fallbackTitle s.current_transcript
        let args : NotionArgs :=
          ⟨title, summaryTextOf analysis.summary, analysis.action_items,
           (if dbId = [] then none else some dbId),
           (if dbId = [] then ("page").data else ("database").data)⟩
        match svc args with
        | .ok page_id =>
          let confirmation := ("Saved to Notion: page id ").data ++ page_id
          ⟨confirmation, add_message s confirmation (("assistant").data), [], [args]⟩
        | .error e =>
          let err := ("Failed to write to Notion: ").data ++ e
          ⟨err, add_message s err (("assistant").data), [], [args]⟩
    else
      let user_lower := pyLower user_message
      let prompt := buildPrompt analysis user_lower user_message
      let raw := callModel prompt
      if raw = [] then
        ⟨("No response from model. Check API key, quota or model availability.").data,
         s, [prompt], []⟩
      else
        ⟨pyStrip raw, add_message s (pyStrip raw) (("assistant").data), [prompt], []⟩

/-- The `/chat` route in `src/api/main.py`: append the user message, run
`get_response`, append the returned reply as an assistant message. -/
def chatRoute (callModel : Str → Str) (notion : Option NotionService) (dbId : Str)
    (s : SessionState) (message : Str) : SessionState × Str :=
  let s₁ := add_message s message (("user").data)
  let r := get_response callModel notion dbId s₁ message
  (add_message r.state r.reply (("assistant").data), r.reply)

/-- One externally driven session operation. -/
inductive SessionOp where
  | procT (text : Str) : SessionOp
  | userMsg (text : Str) : SessionOp
  | clearOp : SessionOp

/-- Apply one operation to the session state. -/
def stepOp (proc : Str → Except Str Analysis) (callModel : Str → Str)
    (notion : Option NotionService) (dbId : Str) (s : SessionState) :
    SessionOp → SessionState
  | .procT t => (process_transcript proc s t).1
  | .userMsg m => (chatRoute callModel notion dbId s m).1
  | .clearOp => clear_conversation s

/-- Run a sequence of operations from a state. -/
def runOps (proc : Str → Except Str Analysis) (callModel : Str → Str)
    (notion : Option NotionService) (dbId : Str) (s : SessionState) :
    List SessionOp → SessionState
  | [] => s
  | op :: ops => runOps proc callModel notion dbId (stepOp proc callModel notion dbId s op) ops

end ChatHandler

/-! ## Spec-side readings and concrete fixtures used by the claims -/

/-- Claim C4's reading of a strict-form line
`[HH:MM:SS] Speaker: content`: the timestamp digits, then speaker and
content exactly the whitespace-trimmed substrings before and after the first
colon following the timestamp's closing bracket. -/
def strictParts : Str → Option (Str × Str × Str)
  | '[' :: a :: b :: ':' :: c :: d :: ':' :: e :: f :: ']' :: rest =>
    if a.isDigit && b.isDigit && c.isDigit && d.isDigit && e.isDigit && f.isDigit
        && rest.contains ':' then
      some ([a, b, ':', c, d, ':', e, f],
            pyStrip (rest.takeWhile (· ≠ ':')),
            pyStrip ((rest.dropWhile (· ≠ ':')).tail))
    else none
  | _ => none

/-- A line is strict-form iff claim C4's reading applies to it. -/
def isStrictLine (line : Str) : Bool := (strictParts line).isSome

/-- Claim C5's reading of the lenient scan: locate a bracketed `HH:MM:SS`
anywhere in the line, take everything after the closing bracket of THAT
timestamp, and split on the first colon, trimming both parts. -/
def lenientParts (line : Str) : Option GeminiTranscriptProcessor.Message :=
  match GeminiTranscriptProcessor.findTs line with
  | none => none
  | some (ts, after) =>
    if after.contains ':' then
      some ⟨ts, pyStrip (after.takeWhile (· ≠ ':')),
            pyStrip ((after.dropWhile (· ≠ ':')).tail)⟩
    else none

/-- The model response text of claim C3. -/
def c3StubText : Str :=
  ("prefix \x7b\"summary\":\"x\",\"main_topics\":[],\"key_points\":[]\x7d suffix").data

/-- The summary-extractor fallback value for a raw response `text`. -/
def summaryFallback (text : Str) : JValue :=
  .obj [(("summary").data, .str text), (("main_topics").data, .arr []),
        (("key_points").data, .arr [])]

/-- A concrete stored analysis for the session fixtures. -/
def fixtureAnalysis : GeminiTranscriptProcessor.Analysis :=
  ⟨.obj [(("summary").data, .str (("the sum").data))], .arr [], .arr [], .arr [],
   [("John").data], ("0:00:00").data⟩

/-- A session that has processed a transcript (fixture for C6/C7/C8). -/
def fixtureState : ChatHandler.SessionState :=
  ⟨[], some (("[00:00:00] J: hi").data), some fixtureAnalysis⟩

/-- The user message of claim C6. -/
def c6Message : Str := ("Please save to notion, titled Weekly Sync").data

/-! ## Helper lemmas -/

theorem except_isOk_exists {ε α : Type} {e : Except ε α} (h : e.isOk = true) :
    ∃ v, e = .ok v := by
  cases e with
  | ok v => exact ⟨v, rfl⟩
  | error _ => simp [Except.isOk, Except.toBool] at h

theorem strptimeHMS_le (ts : Str) (t : Nat)
    (h : GeminiTranscriptProcessor.strptimeHMS ts = .ok t) : t ≤ 86399 := by
  unfold GeminiTranscriptProcessor.strptimeHMS at h
  split at h
  · split at h
    · dsimp only at h
      split at h
      · rename_i hrange
        simp only [Bool.and_eq_true, decide_eq_true_eq] at hrange
        injection h with h
        omega
      · exact absurd h (by simp)
    · exact absurd h (by simp)
  · exact absurd h (by simp)

theorem calculate_duration_isOk (msgs : List GeminiTranscriptProcessor.Message)
    (ht : ∀ m ∈ msgs, (GeminiTranscriptProcessor.strptimeHMS m.timestamp).isOk = true) :
    ∃ d, GeminiTranscriptProcessor.calculate_duration msgs = .ok d := by
  cases msgs with
  | nil => exact ⟨_, rfl⟩
  | cons first rest =>
    obtain ⟨t1, h1⟩ := except_isOk_exists (ht first (by simp))
    obtain ⟨t2, h2⟩ := except_isOk_exists
      (ht (rest.getLastD first) (List.getLastD_mem_cons rest first))
    refine ⟨GeminiTranscriptProcessor.timedeltaStr ((t2 : Int) - (t1 : Int)), ?_⟩
    unfold GeminiTranscriptProcessor.calculate_duration
    dsimp only
    rw [h1, h2]

open GeminiTranscriptProcessor

theorem generate_summary_empty (model : Model) (hm : ∀ p, model p = .ok [])
    (msgs : List Message) : generate_summary model msgs = .ok (summaryFallback []) := by
  unfold generate_summary
  dsimp only
  rw [hm]
  rfl

theorem arrayExtract_empty (header : Str) (model : Model) (hm : ∀ p, model p = .ok [])
    (msgs : List Message) : arrayExtract header model msgs = .ok (.arr []) := by
  unfold arrayExtract
  dsimp only
  rw [hm]
  rfl

/-- C1 (counterexample): `process_transcript` is not exception-free for every
model behaviour — a model invocation that raises propagates out of
`generate_summary` (the call sits outside the `try`), and even the
always-empty-string model lets `_calculate_duration` raise `ValueError` on a
regex-shaped but out-of-range timestamp such as `[99:99:99]`. -/
theorem c1_counterexample :
    process_transcript (fun _ => .error (("ConnectionError").data)) [] =
      .error (("ConnectionError").data) ∧
    process_transcript (fun _ => .ok []) (("[99:99:99] A: hi").data) =
      .error (("time data does not match format %H:%M:%S").data) :=
  ⟨rfl, rfl⟩

/-- C1 (amended): when every model invocation returns (with the empty
string) rather than raising, and every extracted timestamp is a valid time
of day, `process_transcript` returns an `AnalysisResult` with every field
present and the four model-derived fields at their neutral defaults. -/
theorem c1_amended (model : Model) (tr : Str)
    (hm : ∀ p, model p = .ok [])
    (ht : ∀ m ∈ extract_messages tr, (strptimeHMS m.timestamp).isOk = true) :
    ∃ dur, calculate_duration (extract_messages tr) = .ok dur ∧
      process_transcript model tr =
        .ok ⟨summaryFallback [], .arr [], .arr [], .arr [],
             participantsOf (extract_messages tr), dur⟩ := by
  obtain ⟨d, hd⟩ := calculate_duration_isOk _ ht
  refine ⟨d, hd, ?_⟩
  unfold process_transcript
  dsimp only
  rw [generate_summary_empty model hm]
  rw [show extract_action_items model (extract_messages tr) = .ok (.arr []) from
    arrayExtract_empty _ model hm _]
  rw [show extract_meeting_requests model (extract_messages tr) = .ok (.arr []) from
    arrayExtract_empty _ model hm _]
  rw [show extract_key_decisions model (extract_messages tr) = .ok (.arr []) from
    arrayExtract_empty _ model hm _]
  rw [hd]

/-- C1 (witness): the amended statement at the always-empty-string model and
a concrete one-line transcript. -/
theorem c1_witness :
    ∃ dur, calculate_duration (extract_messages (("[00:00:00] A: hi").data)) = .ok dur ∧
      process_transcript (fun _ => .ok []) (("[00:00:00] A: hi").data) =
        .ok ⟨summaryFallback [], .arr [], .arr [], .arr [],
             participantsOf (extract_messages (("[00:00:00] A: hi").data)), dur⟩ :=
  c1_amended (fun _ => .ok []) (("[00:00:00] A: hi").data) (fun _ => rfl) (by decide)

/-- C2 (counterexample): the computed duration is `str(timedelta)`, not the
claimed clamped `M:SS` rendering — a one-utterance transcript (`T1 = T2`)
yields `"0:00:00"` where the claim demands `"0:00"`, and reversed timestamps
(`T2 < T1`) yield `"-1 day, 23:50:00"` where the claim demands `"0:00"`. -/
theorem c2_counterexample :
    calculate_duration [⟨("00:00:00").data, ("a").data, ("b").data⟩] =
      .ok (("0:00:00").data) ∧
    ("0:00:00").data ≠ ("0:00").data ∧
    calculate_duration [⟨("00:10:00").data, ("a").data, ("b").data⟩,
                        ⟨("00:00:00").data, ("c").data, ("d").data⟩] =
      .ok (("-1 day, 23:50:00").data) ∧
    ("-1 day, 23:50:00").data ≠ ("0:00").data :=
  ⟨rfl, by decide, rfl, by decide⟩

/-- C2 (amended): the duration of an empty sequence is `"0:00"`; otherwise,
with valid first/last timestamps `T1`, `T2`, it is Python `str(T2 - T1)` of
the `timedelta`: `H:MM:SS` (hours unpadded, minutes and seconds two-digit)
when `T1 ≤ T2`, and `"-1 day, "` followed by the `H:MM:SS` rendering of
`T2 - T1 + 24h` when `T2 < T1`. -/
theorem c2_amended :
    calculate_duration [] = .ok (("0:00").data) ∧
    ∀ (first : Message) (rest : List Message) (t1 t2 : Nat),
      strptimeHMS first.timestamp = .ok t1 →
      strptimeHMS ((rest.getLastD first).timestamp) = .ok t2 →
      calculate_duration (first :: rest) =
        .ok (if t1 ≤ t2 then
               natStr ((t2 - t1) / 3600) ++ ':' :: pad2 ((t2 - t1) % 3600 / 60) ++
                 ':' :: pad2 ((t2 - t1) % 60)
             else
               ("-1 day, ").data ++ (natStr ((86400 + t2 - t1) / 3600) ++
                 ':' :: pad2 ((86400 + t2 - t1) % 3600 / 60) ++
                 ':' :: pad2 ((86400 + t2 - t1) % 60))) := by
  refine ⟨rfl, ?_⟩
  intro first rest t1 t2 h1 h2
  have b1 := strptimeHMS_le _ _ h1
  have b2 := strptimeHMS_le _ _ h2
  unfold calculate_duration
  dsimp only
  rw [h1, h2]
  unfold timedeltaStr
  dsimp only
  by_cases hle : t1 ≤ t2
  · have hd0 : (0 : Int) ≤ (t2 : Int) - (t1 : Int) := by omega
    have hdlt : (t2 : Int) - (t1 : Int) < 86400 := by omega
    rw [Int.ediv_eq_zero_of_lt hd0 hdlt, Int.emod_eq_of_lt hd0 hdlt]
    have htn : ((t2 : Int) - (t1 : Int)).toNat = t2 - t1 := by omega
    rw [htn]
    simp [hle]
  · have hq := Int.ediv_add_emod ((t2 : Int) - (t1 : Int)) 86400
    have hr0 : (0 : Int) ≤ ((t2 : Int) - (t1 : Int)) % 86400 :=
      Int.emod_nonneg _ (by decide)
    have hrlt : ((t2 : Int) - (t1 : Int)) % 86400 < 86400 :=
      Int.emod_lt_of_pos _ (by decide)
    have hdiv : ((t2 : Int) - (t1 : Int)) / 86400 = -1 := by omega
    have hmod : (((t2 : Int) - (t1 : Int)) % 86400).toNat = 86400 + t2 - t1 := by omega
    rw [hdiv, hmod]
    simp only [if_neg hle]
    norm_num
    rfl

/-- C2 (witness): the amended statement at a concrete two-utterance
sequence, `00:00:00` to `00:05:10`. -/
theorem c2_witness :
    calculate_duration [⟨("00:00:00").data, ("a").data, ("b").data⟩,
                        ⟨("00:05:10").data, ("c").data, ("d").data⟩] =
      .ok (("0:05:10").data) :=
  (c2_amended.2 ⟨("00:00:00").data, ("a").data, ("b").data⟩
    [⟨("00:05:10").data, ("c").data, ("d").data⟩] 0 310 rfl rfl).trans rfl

theorem findIdx?_acc_eq_none_of_not_mem {c : Char} :
    ∀ (l : List Char) (i : Nat), c ∉ l → List.findIdx? (· = c) l i = none := by
  intro l
  induction l with
  | nil => intro i _; rfl
  | cons x t ih =>
    intro i h
    rw [List.findIdx?_cons]
    have hx : ¬(x = c) := fun hxc => h (hxc ▸ List.mem_cons_self x t)
    simp only [hx, decide_eq_true_eq, if_false, decide_eq_false_iff_not.mpr hx]
    exact ih (i + 1) (fun hm => h (List.mem_cons_of_mem x hm))

theorem findIdx?_eq_none_of_not_mem {c : Char} {l : List Char}
    (h : c ∉ l) : l.findIdx? (· = c) = none :=
  findIdx?_acc_eq_none_of_not_mem l 0 h

theorem pyRfind_eq_neg_one {c : Char} {s : Str} (h : c ∉ s) :
    pyRfind s c = -1 := by
  unfold pyRfind
  rw [findIdx?_eq_none_of_not_mem (fun hm => h (List.mem_reverse.mp hm))]

theorem pySlice_stop_zero (s : Str) (a : Int) : pySlice s a 0 = [] := by
  unfold pySlice pySliceIdx
  simp

theorem bracketSlice_of_no_close {text : Str} {o c : Char} (h : c ∉ text) :
    bracketSlice text o c = [] := by
  unfold bracketSlice
  rw [pyRfind_eq_neg_one h]
  exact pySlice_stop_zero text _

/-- C3: the summary extractor parses the brace-delimited JSON object out of
a prose-wrapped model response, and falls back to
`{summary: <raw text>, main_topics: [], key_points: []}` when the response
contains no braces at all. -/
theorem c3 :
    (∀ msgs : List Message,
      generate_summary (fun _ => .ok c3StubText) msgs =
        .ok (.obj [(("summary").data, .str (("x").data)),
                   (("main_topics").data, .arr []),
                   (("key_points").data, .arr [])])) ∧
    (∀ (msgs : List Message) (text : Str), '{' ∉ text → '}' ∉ text →
      generate_summary (fun _ => .ok text) msgs = .ok (summaryFallback text)) := by
  constructor
  · intro msgs
    rfl
  · intro msgs text _ h2
    unfold generate_summary
    dsimp only
    rw [show bracketSlice text '{' '}' = [] from bracketSlice_of_no_close h2]
    rfl

/-- C3 (witness): the fallback half of the statement at the brace-free
response `"hello world"`. -/
theorem c3_witness :
    generate_summary (fun _ => .ok (("hello world").data)) [] =
      .ok (summaryFallback (("hello world").data)) :=
  c3.2 [] (("hello world").data) (by decide) (by decide)

theorem isPrefixOf_self_char (l : Str) : l.isPrefixOf l = true := by
  induction l with
  | nil => rfl
  | cons c t ih => simp [List.isPrefixOf, ih]

theorem strIn_append_self (n pre : Str) : strIn n (pre ++ n) = true := by
  induction pre with
  | nil =>
    cases n with
    | nil => rfl
    | cons c t =>
      show ((c :: t).isPrefixOf (c :: t) || strIn (c :: t) t) = true
      rw [isPrefixOf_self_char (c :: t)]
      rfl
  | cons c pre ih =>
    show (n.isPrefixOf (c :: (pre ++ n)) || strIn n (pre ++ n)) = true
    rw [ih]
    exact Bool.or_true _

/-- C6 (counterexample): the page title passed to `create_meeting_page` is
taken from the lower-cased copy of the message, so it is `"weekly sync"`,
not the case-preserving `"Weekly Sync"` that the claim states. -/
theorem c6_counterexample :
    (ChatHandler.get_response (fun _ => []) (some fun _ => .ok (("abc123").data))
        (("db1").data) fixtureState c6Message).notionCalls.map
      (fun args => args.title) = [("weekly sync").data] ∧
    ("weekly sync").data ≠ ("Weekly Sync").data :=
  ⟨rfl, by decide⟩

/-- C6 (amended): with a stored analysis and a configured notes service,
`get_response` on the C6 message calls `create_meeting_page` exactly once
with title `"weekly sync"` (the marker-extracted title from the lower-cased
text) and returns a confirmation containing the page id the collaborator
returned. -/
theorem c6_amended (callModel : Str → Str) (dbId : Str)
    (s : ChatHandler.SessionState) (a : Analysis) (pid : Str)
    (hs : s.current_analysis = some a) :
    (ChatHandler.get_response callModel (some fun _ => .ok pid) dbId s
        c6Message).notionCalls.map (fun args => args.title) = [("weekly sync").data] ∧
    (ChatHandler.get_response callModel (some fun _ => .ok pid) dbId s
        c6Message).reply = ("Saved to Notion: page id ").data ++ pid ∧
    strIn pid (ChatHandler.get_response callModel (some fun _ => .ok pid) dbId s
        c6Message).reply = true := by
  obtain ⟨msgs, tr, an⟩ := s
  dsimp only at hs
  subst hs
  refine ⟨rfl, rfl, ?_⟩
  exact strIn_append_self pid _

/-- C6 (witness): the amended statement at the concrete fixture session. -/
theorem c6_witness :
    (ChatHandler.get_response (fun _ => []) (some fun _ => .ok (("abc123").data))
        (("db1").data) fixtureState c6Message).notionCalls.map
      (fun args => args.title) = [("weekly sync").data] ∧
    (ChatHandler.get_response (fun _ => []) (some fun _ => .ok (("abc123").data))
        (("db1").data) fixtureState c6Message).reply =
      ("Saved to Notion: page id ").data ++ ("abc123").data ∧
    strIn (("abc123").data)
      (ChatHandler.get_response (fun _ => []) (some fun _ => .ok (("abc123").data))
        (("db1").data) fixtureState c6Message).reply = true :=
  c6_amended (fun _ => []) (("db1").data) fixtureState fixtureAnalysis
    (("abc123").data) rfl

/-- C7 (counterexample): when the processor raises, the session returns an
empty analysis and appends an error message, but the previously stored
analysis stays in `current_analysis` — the state does NOT fall back to an
empty analysis, contradicting the claim's no-stale-state part. -/
theorem c7_counterexample :
    (ChatHandler.process_transcript (fun _ => .error (("disk error").data))
        fixtureState (("new text").data)).1.current_analysis = some fixtureAnalysis ∧
    (some fixtureAnalysis ≠ (none : Option Analysis)) ∧
    (ChatHandler.process_transcript (fun _ => .error (("disk error").data))
        fixtureState (("new text").data)).2 = none ∧
    (ChatHandler.process_transcript (fun _ => .error (("disk error").data))
        fixtureState (("new text").data)).1.messages =
      [⟨("assistant").data, ("Error processing transcript: disk error").data⟩] :=
  ⟨rfl, by simp, rfl, rfl⟩

/-- C7 (amended): on a processor exception the session appends an assistant
error message naming the failure and returns an empty analysis instead of
propagating — but the stored analysis keeps its previous value (stale),
while the stored transcript is already replaced by the new text. -/
theorem c7_amended (proc : Str → Except Str Analysis) (s : ChatHandler.SessionState)
    (text e : Str) (hp : proc text = .error e) :
    ChatHandler.process_transcript proc s text =
      ({ messages := s.messages ++
           [⟨("assistant").data, ("Error processing transcript: ").data ++ e⟩],
         current_transcript := some text,
         current_analysis := s.current_analysis }, none) := by
  unfold ChatHandler.process_transcript
  rw [hp]

/-- C7 (witness): the amended statement at the fixture session and a
processor that raises `"disk error"`. -/
theorem c7_witness :
    ChatHandler.process_transcript (fun _ => .error (("disk error").data))
        fixtureState (("new text").data) =
      ({ messages := [⟨("assistant").data,
           ("Error processing transcript: ").data ++ ("disk error").data⟩],
         current_transcript := some (("new text").data),
         current_analysis := some fixtureAnalysis }, none) :=
  c7_amended (fun _ => .error (("disk error").data)) fixtureState
    (("new text").data) (("disk error").data) rfl

/-- C8: a message whose lower-cased, stripped text contains a persistence
trigger is handled before any topical intent — the model adapter is never
invoked, whether or not the notes service is configured — and with no notes
service configured the fixed "not configured" reply is returned with no
collaborator call and no state change. -/
theorem c8 (callModel : Str → Str) (svc : ChatHandler.NotionService) (dbId : Str)
    (s : ChatHandler.SessionState) (a : Analysis) (msg : Str)
    (hs : s.current_analysis = some a)
    (htrig : ChatHandler.notionTriggers.any
      (fun t => strIn t (pyLower (pyStrip msg))) = true) :
    ChatHandler.get_response callModel none dbId s msg =
      ⟨("Notion integration is not configured. Set NOTION_TOKEN and initialize NotionIntegration.").data,
       s, [], []⟩ ∧
    (ChatHandler.get_response callModel (some svc) dbId s msg).modelCalls = [] := by
  obtain ⟨msgs, tr, an⟩ := s
  dsimp only at hs
  subst hs
  constructor
  · unfold ChatHandler.get_response
    dsimp only
    rw [htrig]
    rfl
  · unfold ChatHandler.get_response
    dsimp only
    rw [htrig]
    split
    · split <;> rfl
    · rename_i hfalse
      exact absurd rfl hfalse

/-- C8 (witness): the statement at the fixture session and the message
"please store to notion the schedule" (which also contains the topical
keyword "schedule"). -/
theorem c8_witness :
    ChatHandler.get_response (fun _ => ("x").data) none (("db1").data) fixtureState
        (("please store to notion the schedule").data) =
      ⟨("Notion integration is not configured. Set NOTION_TOKEN and initialize NotionIntegration.").data,
       fixtureState, [], []⟩ ∧
    (ChatHandler.get_response (fun _ => ("x").data)
        (some fun _ => .ok (("p").data)) (("db1").data) fixtureState
        (("please store to notion the schedule").data)).modelCalls = [] :=
  c8 (fun _ => ("x").data) (fun _ => .ok (("p").data)) (("db1").data) fixtureState
    fixtureAnalysis (("please store to notion the schedule").data) rfl (by decide)

/-- C9: after any operation sequence, `clear()` empties the history and
resets the transcript and analysis, and a subsequent `handleUserMessage`
behaves exactly as on a session with no stored analysis — it returns the
fixed "need a transcript" reply without invoking the model adapter or the
notes service, just as the newly initialised session does. -/
theorem c9 (proc : Str → Except Str Analysis) (callModel : Str → Str)
    (notion : Option ChatHandler.NotionService) (dbId : Str)
    (ops : List ChatHandler.SessionOp) (m : Str) :
    ChatHandler.get_messages
      (ChatHandler.clear_conversation
        (ChatHandler.runOps proc callModel notion dbId ChatHandler.initState ops)) = [] ∧
    ChatHandler.get_response callModel notion dbId
        (ChatHandler.clear_conversation
          (ChatHandler.runOps proc callModel notion dbId ChatHandler.initState ops)) m =
      ⟨("Please upload or provide a transcript first.").data,
       ChatHandler.clear_conversation
         (ChatHandler.runOps proc callModel notion dbId ChatHandler.initState ops),
       [], []⟩ ∧
    ChatHandler.get_response callModel notion dbId ChatHandler.initState m =
      ⟨("Please upload or provide a transcript first.").data,
       ChatHandler.initState, [], []⟩ :=
  ⟨rfl, rfl, rfl⟩

/-! Lemmas about `strip` / first-colon splitting, used to relate the code's
strip-then-split order to the claims' split-then-trim reading. -/

theorem mem_dropWhile_of_mem {w : Char → Bool} {x : Char} :
    ∀ {xs : Str}, x ∈ xs → w x = false → x ∈ xs.dropWhile w := by
  intro xs
  induction xs with
  | nil => intro h _; exact absurd h (List.not_mem_nil x)
  | cons y t ih =>
    intro h hw
    rw [List.dropWhile_cons]
    by_cases hy : w y = true
    · rw [if_pos hy]
      rcases List.mem_cons.mp h with rfl | hm
      · rw [hw] at hy; exact absurd hy (by simp)
      · exact ih hm hw
    · rw [if_neg hy]
      exact h

theorem mem_dropRightWhile_of_mem {w : Char → Bool} {x : Char} {xs : Str}
    (h : x ∈ xs) (hw : w x = false) : x ∈ dropRightWhile w xs := by
  unfold dropRightWhile
  rw [List.mem_reverse]
  exact mem_dropWhile_of_mem (List.mem_reverse.mpr h) hw

theorem mem_pyStrip_of_mem {x : Char} {xs : Str} (h : x ∈ xs)
    (hw : isPyWs x = false) : x ∈ pyStrip xs :=
  mem_dropRightWhile_of_mem (mem_dropWhile_of_mem h hw) hw

theorem pyStrip_cons_nonWs {x : Char} (hx : isPyWs x = false) (t : Str) :
    pyStrip (x :: t) ≠ [] :=
  List.ne_nil_of_mem (mem_pyStrip_of_mem (List.mem_cons_self x t) hx)

theorem dropRightWhile_append_allw {w : Char → Bool} {zs : Str}
    (hz : ∀ z ∈ zs, w z = true) (as : Str) :
    dropRightWhile w (as ++ zs) = dropRightWhile w as := by
  unfold dropRightWhile
  rw [List.reverse_append, List.dropWhile_append,
    List.dropWhile_eq_nil_iff.mpr (fun x hx => hz x (List.mem_reverse.mp hx))]
  rfl

theorem pyStrip_append_allws {zs : Str} (hz : ∀ z ∈ zs, isPyWs z = true) (as : Str) :
    pyStrip (as ++ zs) = pyStrip as := by
  unfold pyStrip
  rw [List.dropWhile_append]
  by_cases hA : (List.dropWhile isPyWs as).isEmpty = true
  · rw [if_pos hA, List.dropWhile_eq_nil_iff.mpr hz, List.isEmpty_iff.mp hA]
  · rw [if_neg hA]
    exact dropRightWhile_append_allw hz _

theorem strip_decomp (w : Char → Bool) (xs : Str) :
    ∃ zs, xs = dropRightWhile w xs ++ zs ∧ ∀ z ∈ zs, w z = true := by
  refine ⟨(xs.reverse.takeWhile w).reverse, ?_, ?_⟩
  · unfold dropRightWhile
    conv_lhs => rw [← List.reverse_reverse xs,
      ← List.takeWhile_append_dropWhile w xs.reverse]
    rw [List.reverse_append]
  · intro z hz
    exact List.mem_takeWhile_imp (List.mem_reverse.mp hz)

theorem takeWhile_append_of_stop {p : Char → Bool} {as : Str} {x : Char}
    (hx : x ∈ as) (hpx : p x = false) (bs : Str) :
    List.takeWhile p (as ++ bs) = List.takeWhile p as := by
  rw [List.takeWhile_append, if_neg]
  intro hlen
  have heq : List.takeWhile p as = as := List.Sublist.eq_of_length (List.takeWhile_sublist p) hlen
  have := List.takeWhile_eq_self_iff.mp heq x hx
  rw [hpx] at this
  exact absurd this (by simp)

theorem dropWhile_append_of_stop {p : Char → Bool} {as : Str} {x : Char}
    (hx : x ∈ as) (hpx : p x = false) (bs : Str) :
    List.dropWhile p (as ++ bs) = List.dropWhile p as ++ bs := by
  rw [List.dropWhile_append, if_neg]
  intro hemp
  have := List.dropWhile_eq_nil_iff.mp (List.isEmpty_iff.mp hemp) x hx
  rw [hpx] at this
  exact absurd this (by simp)

theorem takeWhile_dropWhile_comm {w p : Char → Bool}
    (hwp : ∀ x, w x = true → p x = true) (xs : Str) :
    List.takeWhile p (List.dropWhile w xs) = List.dropWhile w (List.takeWhile p xs) := by
  induction xs with
  | nil => rfl
  | cons x t ih =>
    by_cases hw : w x = true
    · rw [List.dropWhile_cons, if_pos hw, List.takeWhile_cons, if_pos (hwp x hw),
        List.dropWhile_cons, if_pos hw, ih]
    · rw [List.dropWhile_cons, if_neg hw, List.takeWhile_cons]
      by_cases hp : p x = true
      · rw [if_pos hp, List.dropWhile_cons, if_neg hw]
      · rw [if_neg hp]
        rfl

theorem dropWhile_dropWhile_of_imp {w p : Char → Bool}
    (hwp : ∀ x, w x = true → p x = true) (xs : Str) :
    List.dropWhile p (List.dropWhile w xs) = List.dropWhile p xs := by
  induction xs with
  | nil => rfl
  | cons x t ih =>
    by_cases hw : w x = true
    · rw [List.dropWhile_cons, if_pos hw, List.dropWhile_cons, if_pos (hwp x hw), ih]
    · rw [List.dropWhile_cons, if_neg hw]

theorem dropWhile_head_false {p : Char → Bool} {xs : Str} {x : Char} {t : Str}
    (h : List.dropWhile p xs = x :: t) : p x = false := by
  have hh := List.head?_dropWhile_not p xs
  rw [h] at hh
  exact hh

theorem pyStrip_dropWhile_ws (t : Str) :
    pyStrip (List.dropWhile isPyWs t) = pyStrip t := by
  unfold pyStrip
  rw [List.dropWhile_idempotent]

theorem ws_ne_colon : ∀ x, isPyWs x = true → (fun c => decide (c ≠ ':')) x = true := by
  intro x hx
  simp only [decide_eq_true_eq]
  intro hcol
  subst hcol
  exact absurd hx (by decide)

/-- The code strips the post-bracket remainder before splitting on the first
colon and then strips both parts; the claims trim the raw remainder's parts.
Both orders agree whenever the remainder contains a colon. -/
theorem split_strip_comm (rest : Str) (hc : ':' ∈ rest) :
    pyStrip ((pyStrip rest).takeWhile (· ≠ ':')) =
      pyStrip (rest.takeWhile (· ≠ ':')) ∧
    pyStrip (((pyStrip rest).dropWhile (· ≠ ':')).tail) =
      pyStrip ((rest.dropWhile (· ≠ ':')).tail) := by
  set p : Char → Bool := fun c => decide (c ≠ ':') with hp
  have hpc : p ':' = false := by rw [hp]; simp
  obtain ⟨zs, hu, hz⟩ := strip_decomp isPyWs (List.dropWhile isPyWs rest)
  have hys : dropRightWhile isPyWs (List.dropWhile isPyWs rest) = pyStrip rest := rfl
  rw [hys] at hu
  have hcu : ':' ∈ List.dropWhile isPyWs rest :=
    mem_dropWhile_of_mem hc (by decide)
  have hcys : ':' ∈ pyStrip rest := by
    rcases List.mem_append.mp (hu ▸ hcu) with h | h
    · exact h
    · exact absurd (hz ':' h) (by decide)
  constructor
  · have h1 : List.takeWhile p (List.dropWhile isPyWs rest) =
        List.takeWhile p (pyStrip rest) := by
      rw [hu]
      exact takeWhile_append_of_stop hcys hpc zs
    have h2 : List.takeWhile p (List.dropWhile isPyWs rest) =
        List.dropWhile isPyWs (List.takeWhile p rest) :=
      takeWhile_dropWhile_comm ws_ne_colon rest
    rw [← h1, h2, pyStrip_dropWhile_ws]
  · have h1 : List.dropWhile p (List.dropWhile isPyWs rest) = List.dropWhile p rest :=
      dropWhile_dropWhile_of_imp ws_ne_colon rest
    have h2 : List.dropWhile p (List.dropWhile isPyWs rest) =
        List.dropWhile p (pyStrip rest) ++ zs := by
      rw [hu]
      exact dropWhile_append_of_stop hcys hpc zs
    have hXne : List.dropWhile p (pyStrip rest) ≠ [] := by
      intro hnil
      have := List.dropWhile_eq_nil_iff.mp hnil ':' hcys
      rw [hpc] at this
      exact absurd this (by simp)
    obtain ⟨x0, X', hX⟩ := List.exists_cons_of_ne_nil hXne
    have hx0 : x0 = ':' := by
      have := dropWhile_head_false (hX ▸ rfl : List.dropWhile p (pyStrip rest) = x0 :: X')
      rw [hp] at this
      simpa using this
    rw [hX, ← h1, h2, hX]
    show pyStrip X' = pyStrip ((X' ++ zs))
    exact (pyStrip_append_allws hz X').symm

theorem findTs_strict (a b c d e f : Char) (rest : Str)
    (hd : (a.isDigit && b.isDigit && c.isDigit && d.isDigit && e.isDigit && f.isDigit) = true) :
    findTs ('[' :: a :: b :: ':' :: c :: d :: ':' :: e :: f :: ']' :: rest) =
      some ([a, b, ':', c, d, ':', e, f], rest) := by
  show (match matchTs ('[' :: a :: b :: ':' :: c :: d :: ':' :: e :: f :: ']' :: rest) with
        | some r => some r
        | none => findTs (a :: b :: ':' :: c :: d :: ':' :: e :: f :: ']' :: rest)) =
      some ([a, b, ':', c, d, ':', e, f], rest)
  have hm : matchTs ('[' :: a :: b :: ':' :: c :: d :: ':' :: e :: f :: ']' :: rest) =
      some ([a, b, ':', c, d, ':', e, f], rest) := by
    simp only [GeminiTranscriptProcessor.matchTs, hd, if_true]
  rw [hm]

theorem afterFirstRBracket_strict (a b c d e f : Char) (rest : Str)
    (hd : (a.isDigit && b.isDigit && c.isDigit && d.isDigit && e.isDigit && f.isDigit) = true) :
    afterFirstRBracket ('[' :: a :: b :: ':' :: c :: d :: ':' :: e :: f :: ']' :: rest) = rest := by
  simp only [Bool.and_eq_true] at hd
  obtain ⟨⟨⟨⟨⟨ha, hb⟩, hc2⟩, hd2⟩, he2⟩, hf2⟩ := hd
  have na : (decide (a = ']')) = false :=
    decide_eq_false (fun heq => by subst heq; exact absurd ha (by decide))
  have nb : (decide (b = ']')) = false :=
    decide_eq_false (fun heq => by subst heq; exact absurd hb (by decide))
  have nc : (decide (c = ']')) = false :=
    decide_eq_false (fun heq => by subst heq; exact absurd hc2 (by decide))
  have nd : (decide (d = ']')) = false :=
    decide_eq_false (fun heq => by subst heq; exact absurd hd2 (by decide))
  have ne' : (decide (e = ']')) = false :=
    decide_eq_false (fun heq => by subst heq; exact absurd he2 (by decide))
  have nf : (decide (f = ']')) = false :=
    decide_eq_false (fun heq => by subst heq; exact absurd hf2 (by decide))
  unfold GeminiTranscriptProcessor.afterFirstRBracket
  have k1 : (decide ('[' = ']')) = false := by decide
  have k2 : (decide (':' = ']')) = false := by decide
  have k3 : (decide (']' = ']')) = true := by decide
  have hidx : List.findIdx? (· = ']')
      ('[' :: a :: b :: ':' :: c :: d :: ':' :: e :: f :: ']' :: rest) = some 9 := by
    simp [List.findIdx?_cons, k1, k2, k3, na, nb, nc, nd, ne', nf]
  rw [hidx]
  rfl

theorem processLine_blank (line : Str) (h : pyStrip line = []) :
    GeminiTranscriptProcessor.processLine line = none := by
  unfold GeminiTranscriptProcessor.processLine
  rw [if_pos h]

theorem strictParts_blank (line : Str) (h : pyStrip line = []) :
    strictParts line = none := by
  unfold strictParts
  split
  · exact absurd h (pyStrip_cons_nonWs (by decide) _)
  · rfl

theorem processLine_strict (a b c d e f : Char) (rest : Str)
    (hd : (a.isDigit && b.isDigit && c.isDigit && d.isDigit && e.isDigit && f.isDigit) = true)
    (hc : rest.contains ':' = true) :
    GeminiTranscriptProcessor.processLine
        ('[' :: a :: b :: ':' :: c :: d :: ':' :: e :: f :: ']' :: rest) =
      some ⟨[a, b, ':', c, d, ':', e, f],
            pyStrip (rest.takeWhile (· ≠ ':')),
            pyStrip ((rest.dropWhile (· ≠ ':')).tail)⟩ := by
  have hcm : ':' ∈ rest := List.elem_iff.mp hc
  unfold GeminiTranscriptProcessor.processLine
  rw [if_neg (pyStrip_cons_nonWs (by decide) _)]
  rw [findTs_strict a b c d e f rest hd]
  rw [afterFirstRBracket_strict a b c d e f rest hd]
  dsimp only
  have hc2 : (pyStrip rest).contains ':' = true :=
    List.elem_iff.mpr (mem_pyStrip_of_mem hcm (by decide))
  rw [hc2]
  obtain ⟨hsp, hct⟩ := split_strip_comm rest hcm
  rw [hsp, hct]
  rfl

theorem strictParts_strict (a b c d e f : Char) (rest : Str)
    (hd : (a.isDigit && b.isDigit && c.isDigit && d.isDigit && e.isDigit && f.isDigit) = true)
    (hc : rest.contains ':' = true) :
    strictParts ('[' :: a :: b :: ':' :: c :: d :: ':' :: e :: f :: ']' :: rest) =
      some ([a, b, ':', c, d, ':', e, f],
            pyStrip (rest.takeWhile (· ≠ ':')),
            pyStrip ((rest.dropWhile (· ≠ ':')).tail)) := by
  simp only [strictParts, hd, hc]
  rfl

theorem processLine_eq_strictParts (line : Str)
    (h : pyStrip line = [] ∨ isStrictLine line = true) :
    GeminiTranscriptProcessor.processLine line =
      (strictParts line).map (fun t => (⟨t.1, t.2.1, t.2.2⟩ : Message)) := by
  rcases h with hb | hs
  · rw [processLine_blank line hb, strictParts_blank line hb]
    rfl
  · unfold isStrictLine strictParts at hs
    split at hs
    · rename_i a b c d e f rest
      split at hs
      · rename_i hcond
        have hd6 : (a.isDigit && b.isDigit && c.isDigit && d.isDigit &&
            e.isDigit && f.isDigit) = true := by
          simp only [Bool.and_eq_true] at hcond ⊢
          exact ⟨hcond.1.1, hcond.1.2⟩
        have hcont : rest.contains ':' = true := by
          simp only [Bool.and_eq_true] at hcond
          exact hcond.2
        rw [processLine_strict a b c d e f rest hd6 hcont,
          strictParts_strict a b c d e f rest hd6 hcont]
        rfl
      · exact absurd hs (by simp)
    · exact absurd hs (by simp)

/-- C4: on a transcript whose every line is blank or of the strict form
`[HH:MM:SS] Speaker: content`, the extractor returns exactly one utterance
per non-blank line, in original order, with speaker and content exactly the
whitespace-trimmed substrings before and after the first colon following the
timestamp's closing bracket. -/
theorem c4 (tr : Str)
    (h : ∀ line ∈ pySplitNl tr, pyStrip line = [] ∨ isStrictLine line = true) :
    extract_messages tr =
      (pySplitNl tr).filterMap
        (fun line => (strictParts line).map
          (fun t => (⟨t.1, t.2.1, t.2.2⟩ : Message))) := by
  unfold GeminiTranscriptProcessor.extract_messages
  exact List.filterMap_congr (fun line hl => processLine_eq_strictParts line (h line hl))

/-- C4 (witness): the statement at a concrete three-line transcript with a
blank separator line. -/
theorem c4_witness :
    extract_messages (("[00:00:00] John: Hi there\n\n[00:00:15] Sarah:  ok ").data) =
      (pySplitNl (("[00:00:00] John: Hi there\n\n[00:00:15] Sarah:  ok ").data)).filterMap
        (fun line => (strictParts line).map
          (fun t => (⟨t.1, t.2.1, t.2.2⟩ : Message))) :=
  c4 (("[00:00:00] John: Hi there\n\n[00:00:15] Sarah:  ok ").data) (by decide)

theorem mem_of_mem_pyStrip {x : Char} {xs : Str} (h : x ∈ pyStrip xs) : x ∈ xs := by
  unfold pyStrip dropRightWhile at h
  have h1 : x ∈ List.dropWhile isPyWs xs :=
    List.mem_reverse.mp (List.Sublist.mem (List.mem_reverse.mp h) (List.dropWhile_sublist isPyWs))
  exact List.Sublist.mem h1 (List.dropWhile_sublist isPyWs)

/-- C5 (counterexample): a `']'` earlier in the line than the timestamp DOES
affect the split — the code splits the text after the line's first `']'`
(here producing speaker `"[00"`), not the text after the timestamp's closing
bracket (which would produce speaker `"Alice"` as the claim demands). -/
theorem c5_counterexample :
    extract_messages (("x] [00:00:00] Alice: hi").data) =
      [⟨("00:00:00").data, ("[00").data, ("00:00] Alice: hi").data⟩] ∧
    lenientParts (("x] [00:00:00] Alice: hi").data) =
      some ⟨("00:00:00").data, ("Alice").data, ("hi").data⟩ ∧
    (("[00").data : Str) ≠ ("Alice").data :=
  ⟨by decide, by decide, by decide⟩

/-- C5 (amended): for a non-blank line containing a bracketed `HH:MM:SS`
timestamp, the extractor takes everything after the FIRST `']'` in the line
(the timestamp's closing bracket only when no `']'` occurs earlier), and if
that remainder contains a colon splits it on the first colon into speaker
and content with surrounding whitespace trimmed on both; with no colon in
the remainder the line is dropped. -/
theorem c5_amended (line ts after1 : Str)
    (hnb : pyStrip line ≠ [])
    (hf : findTs line = some (ts, after1)) :
    (':' ∈ afterFirstRBracket line →
      GeminiTranscriptProcessor.processLine line =
        some ⟨ts, pyStrip ((afterFirstRBracket line).takeWhile (· ≠ ':')),
              pyStrip (((afterFirstRBracket line).dropWhile (· ≠ ':')).tail)⟩) ∧
    (':' ∉ afterFirstRBracket line →
      GeminiTranscriptProcessor.processLine line = none) := by
  constructor
  · intro hcolon
    unfold GeminiTranscriptProcessor.processLine
    rw [if_neg hnb, hf]
    dsimp only
    have hc2 : (pyStrip (afterFirstRBracket line)).contains ':' = true :=
      List.elem_iff.mpr (mem_pyStrip_of_mem hcolon (by decide))
    rw [hc2]
    obtain ⟨hsp, hct⟩ := split_strip_comm (afterFirstRBracket line) hcolon
    rw [hsp, hct]
    rfl
  · intro hcolon
    unfold GeminiTranscriptProcessor.processLine
    rw [if_neg hnb, hf]
    dsimp only
    have hc2 : (pyStrip (afterFirstRBracket line)).contains ':' = false := by
      cases hb : (pyStrip (afterFirstRBracket line)).contains ':' with
      | false => rfl
      | true => exact absurd (mem_of_mem_pyStrip (List.elem_iff.mp hb)) hcolon
    rw [hc2]
    rfl

/-- C5 (witness): the amended statement's colon branch at a line whose
first `']'` is the timestamp's closing bracket. -/
theorem c5_witness :
    GeminiTranscriptProcessor.processLine (("* [00:11:22] Bob: hello").data) =
      some ⟨("00:11:22").data,
            pyStrip ((afterFirstRBracket (("* [00:11:22] Bob: hello").data)).takeWhile (· ≠ ':')),
            pyStrip (((afterFirstRBracket (("* [00:11:22] Bob: hello").data)).dropWhile (· ≠ ':')).tail)⟩ :=
  (c5_amended (("* [00:11:22] Bob: hello").data) (("00:11:22").data)
    ((" Bob: hello").data) (by decide) (by decide)).1 (by decide)

theorem get_response_appends (callModel : Str → Str)
    (notion : Option ChatHandler.NotionService) (dbId : Str)
    (s : ChatHandler.SessionState) (m : Str) :
    ∃ tail, (ChatHandler.get_response callModel notion dbId s m).state.messages =
      s.messages ++ tail ∧ ∀ x ∈ tail, x.role = ("assistant").data := by
  obtain ⟨msgs, tr, an⟩ := s
  cases an with
  | none => exact ⟨[], (List.append_nil msgs).symm, by simp⟩
  | some a =>
    unfold ChatHandler.get_response
    dsimp only
    split
    · cases notion with
      | none => exact ⟨[], (List.append_nil msgs).symm, by simp⟩
      | some svc =>
        dsimp only
        split
        · refine ⟨_, rfl, ?_⟩
          intro x hx
          rw [List.mem_singleton.mp hx]
        · refine ⟨_, rfl, ?_⟩
          intro x hx
          rw [List.mem_singleton.mp hx]
    · split
      · exact ⟨[], (List.append_nil msgs).symm, by simp⟩
      · refine ⟨_, rfl, ?_⟩
        intro x hx
        rw [List.mem_singleton.mp hx]

theorem stepOp_procT_appends (proc : Str → Except Str Analysis) (callModel : Str → Str)
    (notion : Option ChatHandler.NotionService) (dbId : Str)
    (s : ChatHandler.SessionState) (t : Str) :
    ∃ tail, (ChatHandler.stepOp proc callModel notion dbId s (.procT t)).messages =
        s.messages ++ tail ∧
      ∀ x ∈ tail, x.role = ("user").data ∨ x.role = ("assistant").data := by
  unfold ChatHandler.stepOp ChatHandler.process_transcript
  dsimp only
  cases hp : proc t with
  | ok a =>
    refine ⟨_, rfl, ?_⟩
    intro x hx
    rw [List.mem_singleton.mp hx]
    exact Or.inr rfl
  | error e =>
    refine ⟨_, rfl, ?_⟩
    intro x hx
    rw [List.mem_singleton.mp hx]
    exact Or.inr rfl

theorem stepOp_userMsg_appends (proc : Str → Except Str Analysis) (callModel : Str → Str)
    (notion : Option ChatHandler.NotionService) (dbId : Str)
    (s : ChatHandler.SessionState) (m : Str) :
    ∃ tail, (ChatHandler.stepOp proc callModel notion dbId s (.userMsg m)).messages =
        s.messages ++ tail ∧
      ∀ x ∈ tail, x.role = ("user").data ∨ x.role = ("assistant").data := by
  obtain ⟨tail, htail, hroles⟩ := get_response_appends callModel notion dbId
    (ChatHandler.add_message s m (("user").data)) m
  refine ⟨⟨("user").data, m⟩ :: (tail ++
    [⟨("assistant").data,
      (ChatHandler.get_response callModel notion dbId
        (ChatHandler.add_message s m (("user").data)) m).reply⟩]), ?_, ?_⟩
  · show (ChatHandler.add_message
      (ChatHandler.get_response callModel notion dbId
        (ChatHandler.add_message s m (("user").data)) m).state
      (ChatHandler.get_response callModel notion dbId
        (ChatHandler.add_message s m (("user").data)) m).reply
      (("assistant").data)).messages = _
    show (ChatHandler.get_response callModel notion dbId
        (ChatHandler.add_message s m (("user").data)) m).state.messages ++ _ = _
    rw [htail]
    show (s.messages ++ [⟨("user").data, m⟩]) ++ tail ++ _ = _
    simp [List.append_assoc]
  · intro x hx
    rcases List.mem_cons.mp hx with rfl | hx'
    · exact Or.inl rfl
    · rcases List.mem_append.mp hx' with hx'' | hx''
      · exact Or.inr (hroles x hx'')
      · rw [List.mem_singleton.mp hx'']
        exact Or.inr rfl

/-- C10: in every session state reachable from a fresh session, every
history entry's role is `"user"` or `"assistant"` (with string content, by
construction), and the history is only ever modified by appending entries at
the end — `processTranscript` and `handleUserMessage` each extend the
existing history with a suffix, never removing or rewriting what is already
there — or by `clear`, which empties it. -/
theorem c10 (proc : Str → Except Str Analysis) (callModel : Str → Str)
    (notion : Option ChatHandler.NotionService) (dbId : Str)
    (ops : List ChatHandler.SessionOp) :
    (∀ msg ∈ (ChatHandler.runOps proc callModel notion dbId
        ChatHandler.initState ops).messages,
      msg.role = ("user").data ∨ msg.role = ("assistant").data) ∧
    (∀ s : ChatHandler.SessionState,
      (ChatHandler.stepOp proc callModel notion dbId s .clearOp).messages = []) ∧
    (∀ (s : ChatHandler.SessionState) (t : Str),
      ∃ tail, (ChatHandler.stepOp proc callModel notion dbId s (.procT t)).messages =
        s.messages ++ tail) ∧
    (∀ (s : ChatHandler.SessionState) (m : Str),
      ∃ tail, (ChatHandler.stepOp proc callModel notion dbId s (.userMsg m)).messages =
        s.messages ++ tail) := by
  refine ⟨?_, fun s => rfl, ?_, ?_⟩
  · have main : ∀ (l : List ChatHandler.SessionOp) (s : ChatHandler.SessionState),
        (∀ msg ∈ s.messages,
          msg.role = ("user").data ∨ msg.role = ("assistant").data) →
        ∀ msg ∈ (ChatHandler.runOps proc callModel notion dbId s l).messages,
          msg.role = ("user").data ∨ msg.role = ("assistant").data := by
      intro l
      induction l with
      | nil => intro s hs; exact hs
      | cons op rest ih =>
        intro s hs
        apply ih
        cases op with
        | clearOp => simp [ChatHandler.stepOp, ChatHandler.clear_conversation]
        | procT t =>
          obtain ⟨tail, ht, hr⟩ := stepOp_procT_appends proc callModel notion dbId s t
          rw [ht]
          intro msg hm
          rcases List.mem_append.mp hm with h | h
          · exact hs msg h
          · exact hr msg h
        | userMsg m =>
          obtain ⟨tail, ht, hr⟩ := stepOp_userMsg_appends proc callModel notion dbId s m
          rw [ht]
          intro msg hm
          rcases List.mem_append.mp hm with h | h
          · exact hs msg h
          · exact hr msg h
    apply main
    intro msg hm
    rw [List.mem_singleton.mp hm]
    exact Or.inr rfl
  · intro s t
    obtain ⟨tail, ht, _⟩ := stepOp_procT_appends proc callModel notion dbId s t
    exact ⟨tail, ht⟩
  · intro s m
    obtain ⟨tail, ht, _⟩ := stepOp_userMsg_appends proc callModel notion dbId s m
    exact ⟨tail, ht⟩
